import Mathlib

/-!
Verification development for the bank-statement generator backend
(`src/backend/server.js`).

Modelling conventions (shallow embedding):
* JS strings are modelled as `String` / `List Char`; JS numbers as exact
  rationals `ℚ`.  Binary-double representation error is idealised away;
  non-finite doubles (NaN) are modelled by `Option ℚ` (`none` = NaN) where
  they can propagate.  JS `Infinity` (e.g. `parseFloat "Infinity"`) is not
  representable in `ℚ` and is outside this model; no theorem below depends
  on such inputs.
* JS objects holding CSV rows are modelled as association lists
  `List (String × String)` in key-insertion order, which is the order
  `Object.keys` enumerates.
-/

namespace BankStmt

/-- JS whitespace code points, as used by `String.prototype.trim` and by
`parseFloat` for leading-whitespace skipping. -/
def isJSWhitespace (c : Char) : Bool :=
  [9, 10, 11, 12, 13, 32, 0xa0, 0x1680, 0x2028, 0x2029, 0x202f,
    0x205f, 0x3000, 0xfeff].contains c.toNat
  || (0x2000 ≤ c.toNat && c.toNat ≤ 0x200a)

/-- JS regular-expression line terminators: the characters that `.` in a
regular expression without the `s` flag does not match. -/
def isLineTerm (c : Char) : Bool :=
  [10, 13, 0x2028, 0x2029].contains c.toNat

/-- Model of `String.prototype.trim`: drop JS whitespace from both ends. -/
def trimL (l : List Char) : List Char :=
  ((l.dropWhile isJSWhitespace).reverse.dropWhile isJSWhitespace).reverse

/-- Value of a single decimal digit character. -/
def digitVal (c : Char) : ℕ :=
  if c = '1' then 1 else if c = '2' then 2 else if c = '3' then 3
  else if c = '4' then 4 else if c = '5' then 5 else if c = '6' then 6
  else if c = '7' then 7 else if c = '8' then 8 else if c = '9' then 9 else 0

/-- Numeric value of a list of decimal digit characters (most significant
first). -/
def digitsVal (ds : List Char) : ℕ :=
  ds.foldl (fun a c => 10 * a + digitVal c) 0

/-- Rational power of ten with an integer exponent, for scientific-notation
exponents. -/
def q10z (e : ℤ) : ℚ :=
  if 0 ≤ e then ((10 : ℚ) ^ e.toNat) else ((10 : ℚ) ^ (-e).toNat)⁻¹

/-- Scale factor contributed by an optional exponent part at the tail of a
numeric literal (`e`/`E`, optional sign, digits).  JS `parseFloat` takes the
longest valid literal, so a bare `e` / `e+` with no digits contributes
nothing (factor 1). -/
def expFactor (l : List Char) : ℚ :=
  match l with
  | 'e' :: t => expFactorSigned t
  | 'E' :: t => expFactorSigned t
  | _ => 1
where
  expFactorSigned (t : List Char) : ℚ :=
    match t with
    | '+' :: t2 => expFactorDigits t2 1
    | '-' :: t2 => expFactorDigits t2 (-1)
    | _ => expFactorDigits t 1
  expFactorDigits (t : List Char) (sgn : ℤ) : ℚ :=
    let ds := t.takeWhile Char.isDigit
    if ds.isEmpty then 1 else q10z (sgn * (digitsVal ds : ℤ))

/-- Mantissa of a JS `StrDecimalLiteral` prefix: digits, optionally followed
by a decimal point and more digits, or a decimal point followed by at least
one digit.  Returns the value and the unconsumed tail, or `none` when no
digits could be consumed. -/
def parseMantissa (l : List Char) : Option (ℚ × List Char) :=
  let ip := l.takeWhile Char.isDigit
  let r1 := l.dropWhile Char.isDigit
  if ip.isEmpty then
    match r1 with
    | '.' :: r2 =>
      let fp := r2.takeWhile Char.isDigit
      let r3 := r2.dropWhile Char.isDigit
      if fp.isEmpty then none
      else some ((digitsVal fp : ℚ) / (10 : ℚ) ^ fp.length, r3)
    | _ => none
  else
    match r1 with
    | '.' :: r2 =>
      let fp := r2.takeWhile Char.isDigit
      let r3 := r2.dropWhile Char.isDigit
      some ((digitsVal ip : ℚ) + (digitsVal fp : ℚ) / (10 : ℚ) ^ fp.length, r3)
    | _ => some ((digitsVal ip : ℚ), r1)

/-- Model of JS `parseFloat` on finite results: skip leading whitespace,
optional sign, then the longest decimal-literal prefix with optional
exponent.  `none` models `NaN` (no digits consumed).  The `Infinity`
literal is outside this rational model (see the header comment). -/
def parseFloatD (l : List Char) : Option ℚ :=
  let l1 := l.dropWhile isJSWhitespace
  let sl : ℚ × List Char :=
    match l1 with
    | '+' :: t => (1, t)
    | '-' :: t => (-1, t)
    | _ => (1, l1)
  match parseMantissa sl.2 with
  | none => none
  | some mr => some (sl.1 * (mr.1 * expFactor mr.2))

/-- Model of `Number.prototype.toFixed(2)` followed by unary `+` (as in
`+(x).toFixed(2)` at server.js line 221): round to two decimal places,
half away from zero (ECMA-262 picks the larger candidate on ties, after
taking the sign out). -/
def toFixed2 (x : ℚ) : ℚ :=
  if x < 0 then -((⌊(-x) * 100 + 1 / 2⌋ : ℚ) / 100)
  else (⌊x * 100 + 1 / 2⌋ : ℚ) / 100

/-- Test from the source regex `/^\(.*\)$/` (server.js line 122): first
character `(`, last character `)`, and every character between them
matched by `.`, which excludes line terminators. -/
def parenWrapped (l : List Char) : Bool :=
  decide (l.head? = some '(') && decide (l.getLast? = some ')')
    && decide (2 ≤ l.length)
    && ((l.drop 1).dropLast.all fun c => !(isLineTerm c))

/-- Interior of a parenthesised value, as produced by
`cleaned.replace(/^\(|\)$/g, '')` (server.js line 123) when the value both
starts with `(` and ends with `)`. -/
def innerParen (l : List Char) : List Char := (l.drop 1).dropLast

/-- Model of `parseNumberSafe` (server.js lines 116-129), on the list of
characters of `String(val)`:
strip commas, trim, empty means zero, a `/^\(.*\)$/`-wrapped value parses
as the negated interior, otherwise `parseFloat`, with `NaN` collapsed to
zero. -/
def parseNumberSafeL (l : List Char) : ℚ :=
  let cleaned := trimL (l.filter fun c => c ≠ ',')
  if cleaned.isEmpty then 0
  else if parenWrapped cleaned then
    match parseFloatD (innerParen cleaned) with
    | none => 0
    | some n => -n
  else
    match parseFloatD cleaned with
    | none => 0
    | some n => n

/-- `parseNumberSafe` on an optional string argument; `none` models the
`undefined`/`null` guard at server.js line 117. -/
def parseNumberSafe (v : Option String) : ℚ :=
  match v with
  | none => 0
  | some s => parseNumberSafeL s.data

/-- Modelled from the spec: the Numeric Normalizer contract of section 4.1,
rules applied in the spec order: (a) null/undefined/empty-after-trim means
zero; (b) strip comma separators and surrounding whitespace; (c) a value
fully wrapped in parentheses denotes the negated interior; (d) parse as a
decimal number (JS decimal-literal prefix, as in the source); (e) any parse
failure means zero.  Used as the comparison point for claim C2. -/
def parseAmountSpecL (l : List Char) : ℚ :=
  if (trimL l).isEmpty then 0
  else
    let cleaned := trimL (l.filter fun c => c ≠ ',')
    if decide (cleaned.head? = some '(') && decide (cleaned.getLast? = some ')')
        && decide (2 ≤ cleaned.length) then
      -((parseFloatD (innerParen cleaned)).getD 0)
    else (parseFloatD cleaned).getD 0

/-- Spec-side `parseAmount` on an optional string. -/
def parseAmountSpec (v : Option String) : ℚ :=
  match v with
  | none => 0
  | some s => parseAmountSpecL s.data

/-- A CSV row as delivered by the csv-parser collaborator: an association
list from column name to cell text, in object-key insertion order. -/
abbrev Row := List (String × String)

/-- Exact property lookup on a row object (`normalizedRow.hasOwnProperty(c)`
followed by `normalizedRow[c]`, server.js line 169).  Keys of an object are
unique, so the first association wins. -/
def lookupExact (m : Row) (k : String) : Option String :=
  (m.find? fun kv => kv.1 = k).map fun kv => kv.2

/-- ASCII lowercasing of a string, modelling `String.prototype.toLowerCase`
on the ASCII column names this server uses. -/
def lowerStr (s : String) : String := ⟨s.data.map Char.toLower⟩

/-- Case-insensitive lookup (server.js line 171):
`Object.keys(normalizedRow).find(k => k.toLowerCase() === c.toLowerCase())`,
returning the value of the first key in insertion order whose lowercasing
matches. -/
def lookupCI (m : Row) (k : String) : Option String :=
  (m.find? fun kv => lowerStr kv.1 = lowerStr k).map fun kv => kv.2

/-- Model of `getVal` (server.js lines 167-175): try each candidate column
name in order; for each, an exact key match first, then a case-insensitive
one; stop at the first hit. -/
def getVal (m : Row) : List String → Option String
  | [] => none
  | c :: rest =>
    match lookupExact m c with
    | some v => some v
    | none =>
      match lookupCI m c with
      | some v => some v
      | none => getVal m rest

/-- Assignment `obj[k] = v` on an object modelled as an association list:
an existing key keeps its position and gets the new value, a new key is
appended. -/
def setKey (m : Row) (k v : String) : Row :=
  if m.any fun kv => kv.1 = k then
    m.map fun kv => if kv.1 = k then (k, v) else kv
  else m ++ [(k, v)]

/-- Model of the key-trimming loop (server.js lines 158-161):
`Object.keys(row).forEach(k => normalizedRow[k.trim()] = row[k])`. -/
def normalizeRow (row : Row) : Row :=
  row.foldl (fun m kv => setKey m ⟨trimL kv.1.data⟩ kv.2) []

/-- Model of the BANDHAN case of the bank switch (server.js lines 184-197):
one amount column plus a debit/credit indicator column; the indicator is
defaulted to the empty string when absent (`|| ''`), trimmed and
upper-cased; `D`/`C` pick the side, otherwise the sign of the amount
decides (negative means debit of the absolute value).  Returns
(debit, credit). -/
def bandhanDC (amtV indV : Option String) : ℚ × ℚ :=
  let amt := parseNumberSafe amtV
  let drcr := (trimL (indV.getD "").data).map Char.toUpper
  if drcr.head? = some 'D' then (amt, 0)
  else if drcr.head? = some 'C' then (0, amt)
  else if amt < 0 then (-amt, 0) else (0, amt)

/-- Model of the per-bank debit/credit extraction switch
(server.js lines 178-218) applied to a normalized row.  Returns
(debit, credit). -/
def extractDC (bank : String) (m : Row) : ℚ × ℚ :=
  if bank = "PNB" then
    (parseNumberSafe (getVal m ["withdrawal", "withdrawals", "debit"]),
     parseNumberSafe (getVal m ["deposit", "deposits", "credit"]))
  else if bank = "BANDHAN" then
    bandhanDC (getVal m ["amount", "Amount"])
      (getVal m ["dr_cr", "dr/cr", "dr cr", "cr_dr", "type"])
  else if bank = "CENTRAL" ∨ bank = "ICICI" ∨ bank = "SBI" ∨ bank = "IDFC"
      ∨ bank = "AXIS" then
    (parseNumberSafe (getVal m ["debit", "withdrawals", "withdrawal"]),
     parseNumberSafe (getVal m ["credit", "deposit", "deposits"]))
  else if bank = "HDFC" then
    (parseNumberSafe (getVal m ["withdrawal", "withdrawals", "debit"]),
     parseNumberSafe (getVal m ["deposit", "deposits", "credit"]))
  else
    (parseNumberSafe (getVal m ["debit", "withdrawal", "withdrawals"]),
     parseNumberSafe (getVal m ["credit", "deposit", "deposits"]))

/-- One output row of the upload-statement data callback: the normalized
row together with `_parsed_debit`, `_parsed_credit` and the computed
`balance` (server.js lines 224-231). -/
structure OutRow where
  row : Row
  parsedDebit : ℚ
  parsedCredit : ℚ
  balance : ℚ
  deriving DecidableEq

/-- The `.on('data')` fold of `/api/upload-statement/:bank`
(server.js lines 155-236), started from accumulator `b`: normalize the
row's keys, extract debit/credit for the bank, update the running balance
by `+(runningBalance + credit - debit).toFixed(2)` (line 221), and push
one output row. -/
def uploadRowsFrom (bank : String) (b : ℚ) : List Row → List OutRow
  | [] => []
  | r :: t =>
    let m := normalizeRow r
    let dc := extractDC bank m
    let b2 := toFixed2 (b + dc.2 - dc.1)
    ⟨m, dc.1, dc.2, b2⟩ :: uploadRowsFrom bank b2 t

/-- The upload-statement row fold with the running balance initialised to
`0` (server.js line 150: `let runningBalance = 0;` — the route has no
opening-balance input). -/
def uploadRows (bank : String) (rows : List Row) : List OutRow :=
  uploadRowsFrom bank 0 rows

/-- The banks with a CSV template (server.js lines 87-96); the same eight
identifiers key `bankTemplates` (lines 414-2598). -/
def supportedBanks : List String :=
  ["PNB", "BANDHAN", "CENTRAL", "ICICI", "SBI", "AXIS", "HDFC", "IDFC"]

/-- Outcome of a request to `/api/upload-statement/:bank` with a file
attached.  An unknown bank is rejected up front (line 144-147).  For a
supported bank the handler evaluates `csvParser()` (line 154) — but the
csv-parser module is imported under the name `csv` (line 10) and
`csvParser` is bound nowhere, so the handler throws a `ReferenceError`
before consuming a single row and the request fails; `uploadRows` above
models the row fold of the `.on('data')` callback that this slip makes
unreachable. -/
def uploadStatementResponse (bank : String) (rows : List Row) :
    Except String (List OutRow) :=
  if bank ∈ supportedBanks then
    .error "ReferenceError: csvParser is not defined"
  else .error "Unsupported bank"

/-- Modelled from the spec (section 4.4 Ledger Calculator wording, as the
comparison point for claim C3): the running balance sequence obtained from
per-row (debit, credit) deltas by `balance = previous + credit - debit`,
rounded to two decimals at each step, starting from opening balance `b`. -/
def roundedScan (b : ℚ) : List (ℚ × ℚ) → List ℚ
  | [] => []
  | dc :: t =>
    let b2 := toFixed2 (b + dc.2 - dc.1)
    b2 :: roundedScan b2 t

/-- A JS number that may be NaN (`none`). -/
abbrev JSNum := Option ℚ

/-- JS addition with NaN propagation. -/
def jadd : JSNum → JSNum → JSNum
  | some a, some b => some (a + b)
  | _, _ => none

/-- JS subtraction with NaN propagation. -/
def jsub : JSNum → JSNum → JSNum
  | some a, some b => some (a - b)
  | _, _ => none

/-- Model of `r.debit ? parseFloat(r.debit) : 0` in `/api/import-csv`
(server.js lines 360-361): a missing or empty (falsy) cell is `0`,
otherwise raw `parseFloat` — whose failure is NaN, not zero. -/
def importAmount (r : Row) (k : String) : JSNum :=
  match lookupExact r k with
  | none => some 0
  | some s => if s = "" then some 0 else parseFloatD s.data

/-- The balance fold of `/api/import-csv` (server.js lines 354-376),
started from accumulator `b`: `newBalance = lastBalance - debit + credit`,
with no rounding step, one stored balance per row. -/
def importBalancesFrom (b : JSNum) : List Row → List JSNum
  | [] => []
  | r :: t =>
    let nb := jadd (jsub b (importAmount r "debit")) (importAmount r "credit")
    nb :: importBalancesFrom nb t

/-- The import-csv balances with the accumulator initialised to `0`
(server.js line 354: `let lastBalance = 0;` — no opening-balance input). -/
def importBalances (rows : List Row) : List JSNum :=
  importBalancesFrom (some 0) rows

/-- PNB body-row height (server.js line 595):
`Math.max(narrationHeight + 8, 22)`, where `narrationHeight` is the
measured height of the narration cell text (text measurement is the
external collaborator, so it enters as a parameter). -/
def pnbRowHeight (narrationHeight : ℚ) : ℚ :=
  max (narrationHeight + 8) 22

/-- ICICI body-row height (server.js lines 1476-1483): start from 0 and
take `Math.max(rowHeight, h + 6)` over the measured heights of all seven
cells; there is no constant minimum term. -/
def iciciRowHeight (cellHeights : List ℚ) : ℚ :=
  cellHeights.foldl (fun acc h => max acc (h + 6)) 0

/-- One emitted body row of a paginated table: page number, top
y-coordinate, row height. -/
abbrev PlacedRow := ℕ × ℚ × ℚ

/-- The PNB row-placement loop (server.js lines 588-648) over the
pre-computed row heights: if `tableY + rowHeight > doc.page.height - 80`
emit a page advance and restart the table at `y = 80` (title at 40, table
40 below it, line 608), then place the row and advance `tableY`. -/
def pnbLayoutGo (pageH : ℚ) (p : ℕ) (y : ℚ) : List ℚ → List PlacedRow
  | [] => []
  | h :: t =>
    if y + h > pageH - 80 then
      (p + 1, 80, h) :: pnbLayoutGo pageH (p + 1) (80 + h) t
    else
      (p, y, h) :: pnbLayoutGo pageH p (y + h) t

/-- PNB placement starting on page 1 below the first-page table header. -/
def pnbLayout (pageH startY : ℚ) (hs : List ℚ) : List PlacedRow :=
  pnbLayoutGo pageH 1 startY hs

/-- The IDFC row-placement loop (server.js lines 2519-2576): page-break
check against `doc.page.height - 80`, continuation pages restart the table
directly at `y = 40` with no repeated header (line 2535). -/
def idfcLayoutGo (pageH : ℚ) (p : ℕ) (y : ℚ) : List ℚ → List PlacedRow
  | [] => []
  | h :: t =>
    if y + h > pageH - 80 then
      (p + 1, 40, h) :: idfcLayoutGo pageH (p + 1) (40 + h) t
    else
      (p, y, h) :: idfcLayoutGo pageH p (y + h) t

/-- IDFC placement starting on page 1 below the first-page table header. -/
def idfcLayout (pageH startY : ℚ) (hs : List ℚ) : List PlacedRow :=
  idfcLayoutGo pageH 1 startY hs

/-- An A4 page height in PDF layout units, as produced by
`new PDFDocument({ size: "A4" })`. -/
def a4Height : ℚ := 84189 / 100

/-- A transaction entry as seen by the rendering templates (fields of the
JSON `transactions` records, numerically valued); `none` models an absent
field.  String/number JSON encodings are idealised to the numeric value
they convert to. -/
structure TEntry where
  debit : Option ℚ
  credit : Option ℚ
  balance : Option ℚ
  deriving DecidableEq

/-- Sum of all entries' debit values (absent contributes zero).  This is
also exactly the AXIS fallback accumulation (server.js lines 2015-2019):
`if (e.debit) debitSum += Number(e.debit)` skips only falsy values, and
skipping a zero equals adding it. -/
def sumDebits (es : List TEntry) : ℚ :=
  (es.map fun e => e.debit.getD 0).sum

/-- Sum of all entries' credit values (absent contributes zero). -/
def sumCredits (es : List TEntry) : ℚ :=
  (es.map fun e => e.credit.getD 0).sum

/-- BANDHAN summary total debits (server.js lines 1007-1009): only entries
with a truthy, strictly positive debit are accumulated. -/
def bandhanTotalDebits (es : List TEntry) : ℚ :=
  (es.map fun e =>
    match e.debit with
    | some d => if 0 < d then d else 0
    | none => 0).sum

/-- BANDHAN summary total credits (server.js lines 1004-1006). -/
def bandhanTotalCredits (es : List TEntry) : ℚ :=
  (es.map fun e =>
    match e.credit with
    | some c => if 0 < c then c else 0
    | none => 0).sum

/-- BANDHAN summary opening balance (server.js lines 1001-1003): the first
entry's balance when truthy, else the initial 0 — which coincides with the
balance value itself whenever the balance is numerically present. -/
def bandhanOpening (es : List TEntry) : ℚ :=
  ((es.head?.bind fun e => e.balance).getD 0)

/-- BANDHAN summary closing balance (server.js lines 1010-1012): the last
entry's balance. -/
def bandhanClosing (es : List TEntry) : ℚ :=
  ((es.getLast?.bind fun e => e.balance).getD 0)

/-- JS truthiness of an optional string value (absent or empty is falsy). -/
def jsTruthyS : Option String → Bool
  | none => false
  | some s => s ≠ ""

/-- JS `v || dflt` on an optional string. -/
def jsOrD (v : Option String) (dflt : String) : String :=
  if jsTruthyS v then v.getD dflt else dflt

/-- Decimal digit character for a value below ten. -/
def digitChar (d : ℕ) : Char := Char.ofNat (48 + d)

/-- Decimal rendering of a natural number (structural fuel recursion so
concrete values reduce). -/
def renderNatAux : ℕ → ℕ → List Char
  | 0, _ => []
  | _ + 1, 0 => []
  | fuel + 1, n => renderNatAux fuel (n / 10) ++ [digitChar (n % 10)]

/-- Decimal rendering of a natural number. -/
def renderNat (n : ℕ) : String :=
  if n = 0 then "0" else ⟨renderNatAux (n + 1) n⟩

/-- Model of `Number.prototype.toFixed(2)` as a string: sign, integer
part, dot, two fractional digits, rounding half away from zero. -/
def fixed2Str (x : ℚ) : String :=
  let sgn := if x < 0 then "-" else ""
  let m := if x < 0 then -x else x
  let n := (⌊m * 100 + 1 / 2⌋).toNat
  sgn ++ renderNat (n / 100) ++ "." ++
    (if n % 100 < 10 then "0" else "") ++ renderNat (n % 100)

/-- AXIS transaction-total cells (server.js lines 2010-2022): the
account-profile totals when both are truthy, otherwise both recomputed
from the entries. -/
def axisTotals (acctTd acctTc : Option String) (es : List TEntry) :
    String × String :=
  if jsTruthyS acctTd && jsTruthyS acctTc then
    (acctTd.getD "0.00", acctTc.getD "0.00")
  else
    (fixed2Str (sumDebits es), fixed2Str (sumCredits es))

/-- IDFC summary row values (server.js lines 2460-2463): opening balance,
total debit, total credit, closing balance — all four read from the
account profile with `|| '0.00'` fallbacks; the entries play no part. -/
def idfcSummaryValues (ob td tc cb : Option String) : List String :=
  [jsOrD ob "0.00", jsOrD td "0.00", jsOrD tc "0.00", jsOrD cb "0.00"]

/-- A drawing instruction of the generate-pdf fallback path; the
`templateDispatch` marker stands for the per-bank template instruction
stream (whose internals are modelled above where claims need them). -/
inductive PdfInstr where
  | text (s : String)
  | templateDispatch (bank : String)
  deriving DecidableEq

/-- The account object of a generate-pdf request body, after the handler's
destructuring; only the fields the fallback path reads are modelled. -/
structure GenAccount where
  name : Option String
  account_no : Option String
  deriving DecidableEq

/-- Result of `/api/generate-pdf` (server.js lines 2601-2622):
`httpError = none` means the handler streamed a PDF with status 200. -/
structure GenResult where
  httpError : Option String
  instrs : List PdfInstr
  deriving DecidableEq

/-- Model of the `/api/generate-pdf` handler (server.js lines 2601-2622):
a missing bank defaults to `"PNB"`; a known bank dispatches to its
template; an unknown bank falls back to a generic sample document — title
text plus, when the account object is non-null, a name line and an
account-number line — and the handler never reports an error. -/
def generatePdf (bank : Option String) (account : Option GenAccount) :
    GenResult :=
  let b := bank.getD "PNB"
  if b ∈ supportedBanks then
    ⟨none, [PdfInstr.templateDispatch b]⟩
  else
    ⟨none,
      PdfInstr.text "Bank Statement (Sample)" ::
        (match account with
         | some a =>
            [PdfInstr.text ("Name: " ++ a.name.getD ""),
             PdfInstr.text ("Account No.: " ++ a.account_no.getD "")]
         | none => [])⟩

/-! Claim theorems. -/

/-- C1, counterexample: the claim fails on the code.  For the unknown
institution identifier `"XYZ"` the generate-pdf handler reports no error
(the response is a 200 PDF stream) and emits three drawing instructions —
a generic sample document — rather than failing with zero instructions. -/
theorem C1_counterexample :
    (generatePdf (some "XYZ") (some ⟨none, none⟩)).httpError = none ∧
    (generatePdf (some "XYZ") (some ⟨none, none⟩)).instrs.length = 3 ∧
    (generatePdf (some "XYZ") (some ⟨none, none⟩)).instrs ≠ [] := by
  refine ⟨by decide, by decide, by decide⟩

/-- C1, amended: only the CSV routes treat an unknown institution as a
hard input error; the generate-pdf route never fails — an unknown bank
silently falls back to a generic sample document with a nonzero
instruction stream, and an absent bank identifier silently defaults to the
PNB schema. -/
theorem C1_unknown_institution :
    (∀ b acct, b ∉ supportedBanks →
      (generatePdf (some b) acct).httpError = none ∧
      (generatePdf (some b) acct).instrs ≠ []) ∧
    (∀ acct, generatePdf none acct = generatePdf (some "PNB") acct) ∧
    (∀ bank rows, bank ∉ supportedBanks →
      uploadStatementResponse bank rows = .error "Unsupported bank") := by
  refine ⟨fun b acct hb => ?_, fun acct => rfl, fun bank rows hb => ?_⟩
  · cases acct with
    | none => simp [generatePdf, hb]
    | some a => simp [generatePdf, hb]
  · simp [uploadStatementResponse, hb]

/-- C1, witness for the amended theorem at the institution `"XYZ"`. -/
theorem C1_unknown_institution_witness :
    ((generatePdf (some "XYZ") (some ⟨none, none⟩)).httpError = none ∧
      (generatePdf (some "XYZ") (some ⟨none, none⟩)).instrs ≠ []) ∧
    uploadStatementResponse "XYZ" [] = .error "Unsupported bank" :=
  ⟨C1_unknown_institution.1 "XYZ" (some ⟨none, none⟩) (by decide),
   C1_unknown_institution.2.2 "XYZ" [] (by decide)⟩

/-- C4: the upload-statement route can never return one output entry per
input row, because the handler evaluates the unbound identifier
`csvParser` (server.js line 154; the module is imported as `csv` at
line 10) and every request for a supported bank fails with a
ReferenceError before any row is consumed.  The row fold the handler was
meant to run (`uploadRows`, from the `.on('data')` callback) does satisfy
the claim: it is a sequential fold producing exactly one output row per
input row, in input order, never re-sorting and never dropping a row —
row-level parse failures surface as zero amounts, not as dropped rows. -/
theorem C4_upload_fold :
    (∀ rows, uploadStatementResponse "PNB" rows =
      .error "ReferenceError: csvParser is not defined") ∧
    (∀ bank b rows,
      (uploadRowsFrom bank b rows).map OutRow.row = rows.map normalizeRow) ∧
    (∀ bank b rows, (uploadRowsFrom bank b rows).length = rows.length) := by
  refine ⟨fun rows => by simp [uploadStatementResponse, supportedBanks],
    fun bank b rows => ?_, fun bank b rows => ?_⟩
  · induction rows generalizing b with
    | nil => simp [uploadRowsFrom]
    | cons r t ih => simp [uploadRowsFrom, ih]
  · induction rows generalizing b with
    | nil => simp [uploadRowsFrom]
    | cons r t ih => simp [uploadRowsFrom, ih]

/-- C5: field resolution tries the synonym list in priority order; for
each candidate an exact key match is attempted before a case-insensitive
one, stopping at the first hit; with both `"Debit"` and `"debit"` present
and candidate `"debit"`, the exact-case key's value (`"3"`, not `"7"`)
wins; when no candidate matches the field resolves to absent, which the
callers turn into a zero amount (`parseNumberSafe`) or an empty string
(`|| ''`). -/
theorem C5_field_resolution :
    (∀ m c cs, getVal m (c :: cs) =
      ((lookupExact m c).orElse fun _ =>
        ((lookupCI m c).orElse fun _ => getVal m cs))) ∧
    (∀ m, getVal m [] = none) ∧
    getVal [("Debit", "7"), ("debit", "3")] ["debit"] = some "3" ∧
    ("3" : String) ≠ "7" ∧
    parseNumberSafe none = 0 ∧
    ((none : Option String).getD "") = "" := by
  refine ⟨fun m c cs => ?_, fun m => rfl, by decide, by decide, rfl, rfl⟩
  cases h1 : lookupExact m c <;> cases h2 : lookupCI m c <;>
    simp [getVal, h1, h2, Option.orElse]

/-- C6: under the BANDHAN signed single-amount-plus-indicator schema, an
indicator starting with `D`/`d` makes the parsed amount the debit (credit
zero), `C`/`c` makes it the credit (debit zero); with the indicator
absent, a negative amount becomes a debit of its absolute value and a
non-negative amount becomes the credit; and the BANDHAN arm of the
extraction switch applies this one schema-declared rule to every row. -/
theorem C6_bandhan_indicator :
    ∀ amtV indV : Option String,
      (((trimL (indV.getD "").data).map Char.toUpper).head? = some 'D' →
        bandhanDC amtV indV = (parseNumberSafe amtV, 0)) ∧
      (((trimL (indV.getD "").data).map Char.toUpper).head? = some 'C' →
        bandhanDC amtV indV = (0, parseNumberSafe amtV)) ∧
      (indV = none → parseNumberSafe amtV < 0 →
        bandhanDC amtV indV = (-(parseNumberSafe amtV), 0)) ∧
      (indV = none → 0 ≤ parseNumberSafe amtV →
        bandhanDC amtV indV = (0, parseNumberSafe amtV)) ∧
      (∀ m, extractDC "BANDHAN" m =
        bandhanDC (getVal m ["amount", "Amount"])
          (getVal m ["dr_cr", "dr/cr", "dr cr", "cr_dr", "type"])) := by
  intro amtV indV
  refine ⟨fun h => ?_, fun h => ?_, fun h h2 => ?_, fun h h2 => ?_,
    fun m => ?_⟩
  · simp [bandhanDC, h]
  · simp [bandhanDC, h]
  · subst h
    simp [bandhanDC, trimL, h2]
  · subst h
    simp [bandhanDC, trimL, not_lt.mpr h2]
  · simp +decide [extractDC]

/-- C6, witness: the four indicator cases at concrete inputs. -/
theorem C6_bandhan_indicator_witness :
    bandhanDC (some "50") (some "dr") = (parseNumberSafe (some "50"), 0) ∧
    bandhanDC (some "50") (some " cr ") = (0, parseNumberSafe (some "50")) ∧
    bandhanDC (some "-75") none = (-(parseNumberSafe (some "-75")), 0) ∧
    bandhanDC (some "75") none = (0, parseNumberSafe (some "75")) :=
  ⟨(C6_bandhan_indicator (some "50") (some "dr")).1 (by decide),
   (C6_bandhan_indicator (some "50") (some " cr ")).2.1 (by decide),
   (C6_bandhan_indicator (some "-75") none).2.2.1 rfl (by
      norm_num +decide [parseNumberSafe, parseNumberSafeL, parseFloatD,
        parseMantissa, digitsVal, digitVal, expFactor, trimL, parenWrapped,
        innerParen, isJSWhitespace, isLineTerm, List.takeWhile,
        List.dropWhile, List.filter, Char.isDigit]),
   (C6_bandhan_indicator (some "75") none).2.2.2.1 rfl (by
      norm_num +decide [parseNumberSafe, parseNumberSafeL, parseFloatD,
        parseMantissa, digitsVal, digitVal, expFactor, trimL, parenWrapped,
        innerParen, isJSWhitespace, isLineTerm, List.takeWhile,
        List.dropWhile, List.filter, Char.isDigit])⟩

/-- C3, counterexample: the claim fails on the code.  The import-csv
balance fold applies no rounding: for the single row with debit `0.004`
the stored balance is exactly `-1/250 = -0.004`, while the claimed
per-step two-decimal rounding of `0 + 0 - 0.004` is `0`. -/
theorem C3_counterexample :
    importBalances [[("debit", "0.004")]] = [some (-(1 / 250))] ∧
    toFixed2 (0 + 0 - 1 / 250) = 0 ∧
    ((-(1 / 250) : ℚ) ≠ 0) := by
  refine ⟨?_, ?_, by norm_num⟩
  · norm_num +decide [importBalances, importBalancesFrom, importAmount,
      lookupExact, jadd, jsub, parseFloatD, parseMantissa, digitsVal,
      digitVal, expFactor, trimL, isJSWhitespace, List.takeWhile,
      List.dropWhile, List.filter, Char.isDigit, List.find?]
  · norm_num [toFixed2]

/-- C3, amended: the upload-statement fold satisfies the claimed
recurrence with two-decimal rounding at every step —
`balance[i] = round2(balance[i-1] + credit[i] - debit[i])` from the
starting accumulator — whereas the import-csv fold satisfies the exact,
unrounded recurrence `balance[i] = balance[i-1] - debit[i] + credit[i]`;
the PNB scenario (opening 0, rows debit 100 / credit 250 / debit 50)
yields balances −100.00, 150.00, 100.00. -/
theorem C3_running_balance :
    (∀ bank b rows,
      (uploadRowsFrom bank b rows).map OutRow.balance =
        roundedScan b (rows.map fun r => extractDC bank (normalizeRow r))) ∧
    (∀ (b d c : ℚ) r t, importAmount r "debit" = some d →
      importAmount r "credit" = some c →
      importBalancesFrom (some b) (r :: t) =
        some (b - d + c) :: importBalancesFrom (some (b - d + c)) t) ∧
    (uploadRows "PNB"
        [[("withdrawal", "100"), ("deposit", "0")],
         [("withdrawal", "0"), ("deposit", "250")],
         [("withdrawal", "50"), ("deposit", "0")]]).map OutRow.balance =
      [-100, 150, 100] := by
  refine ⟨fun bank b rows => ?_, fun b d c r t hd hc => ?_, ?_⟩
  · induction rows generalizing b with
    | nil => simp [uploadRowsFrom, roundedScan]
    | cons r t ih => simp [uploadRowsFrom, roundedScan, ih]
  · simp [importBalancesFrom, hd, hc, jsub, jadd]
  · norm_num +decide [uploadRows, uploadRowsFrom, normalizeRow, setKey,
      extractDC, getVal, lookupExact, lookupCI, lowerStr, toFixed2,
      parseNumberSafe, parseNumberSafeL, parseFloatD, parseMantissa,
      digitsVal, digitVal, expFactor, trimL, parenWrapped, innerParen,
      isJSWhitespace, isLineTerm, List.takeWhile, List.dropWhile,
      List.filter, Char.isDigit, List.find?, List.foldl]

/-- C3, witness: the import recurrence instantiated at a concrete row
with debit 7 and missing credit. -/
theorem C3_running_balance_witness :
    importBalancesFrom (some 5) [[("debit", "7")]] =
      some (5 - 7 + 0) :: importBalancesFrom (some (5 - 7 + 0)) [] :=
  C3_running_balance.2.1 5 7 0 [("debit", "7")] []
    (by norm_num +decide [importAmount, lookupExact, parseFloatD,
      parseMantissa, digitsVal, digitVal, expFactor, trimL, isJSWhitespace,
      List.takeWhile, List.dropWhile, Char.isDigit, List.find?])
    (by norm_num +decide [importAmount, lookupExact, List.find?])

/-- C10, counterexample: the claim fails on the code.  The upload fold
does start from zero, but its first stored balance is the two-decimal
rounding of `credit[0] - debit[0]`, not that value itself: for a single
PNB row with withdrawal `0.004` the code stores balance `0`, while
`credit[0] - debit[0] = -0.004`. -/
theorem C10_counterexample :
    (uploadRows "PNB" [[("withdrawal", "0.004")]]).map OutRow.balance =
      [0] ∧
    (extractDC "PNB" (normalizeRow [("withdrawal", "0.004")])).2 -
        (extractDC "PNB" (normalizeRow [("withdrawal", "0.004")])).1 =
      -(1 / 250) ∧
    ((0 : ℚ) ≠ -(1 / 250)) := by
  refine ⟨?_, ?_, by norm_num⟩
  · norm_num +decide [uploadRows, uploadRowsFrom, normalizeRow, setKey,
      extractDC, getVal, lookupExact, lookupCI, lowerStr, toFixed2,
      parseNumberSafe, parseNumberSafeL, parseFloatD, parseMantissa,
      digitsVal, digitVal, expFactor, trimL, parenWrapped, innerParen,
      isJSWhitespace, isLineTerm, List.takeWhile, List.dropWhile,
      List.filter, Char.isDigit, List.find?, List.foldl]
  · norm_num +decide [normalizeRow, setKey, extractDC, getVal, lookupExact,
      lookupCI, lowerStr, parseNumberSafe, parseNumberSafeL, parseFloatD,
      parseMantissa, digitsVal, digitVal, expFactor, trimL, parenWrapped,
      innerParen, isJSWhitespace, isLineTerm, List.takeWhile,
      List.dropWhile, List.filter, Char.isDigit, List.find?, List.foldl]

/-- C10, amended: both CSV operations hard-code a zero starting balance
with no opening-balance input: the upload fold's first balance is the
two-decimal rounding of `credit[0] - debit[0]` and the import fold's
first balance is exactly `credit[0] - debit[0]`, in both cases regardless
of any stored account opening balance (neither fold takes one). -/
theorem C10_zero_opening :
    (∀ bank rows, uploadRows bank rows = uploadRowsFrom bank 0 rows) ∧
    (∀ bank r t, ((uploadRows bank (r :: t)).head?.map OutRow.balance) =
      some (toFixed2 (0 + (extractDC bank (normalizeRow r)).2 -
        (extractDC bank (normalizeRow r)).1))) ∧
    (∀ rows, importBalances rows = importBalancesFrom (some 0) rows) ∧
    (∀ r t (d c : ℚ), importAmount r "debit" = some d →
      importAmount r "credit" = some c →
      (importBalances (r :: t)).head? = some (some (c - d))) := by
  refine ⟨fun bank rows => rfl, fun bank r t => ?_, fun rows => rfl,
    fun r t d c hd hc => ?_⟩
  · simp [uploadRows, uploadRowsFrom]
  · simp [importBalances, importBalancesFrom, hd, hc, jsub, jadd]
    ring

/-- C10, witness: the import first-balance shape at a concrete row with
debit 7 and missing credit. -/
theorem C10_zero_opening_witness :
    (importBalances [[("debit", "7")]]).head? = some (some ((0 : ℚ) - 7)) := by
  have h := C10_zero_opening.2.2.2 [("debit", "7")] [] 7 0
    (by norm_num +decide [importAmount, lookupExact, parseFloatD,
      parseMantissa, digitsVal, digitVal, expFactor, trimL, isJSWhitespace,
      List.takeWhile, List.dropWhile, Char.isDigit, List.find?])
    (by norm_num +decide [importAmount, lookupExact, List.find?])
  exact h

/-- Monotonicity of the ICICI row-height fold in both the accumulator and
the measured cell heights. -/
theorem iciciFold_mono (a a' : ℚ) (hs hs' : List ℚ) (ha : a ≤ a')
    (h : List.Forall₂ (· ≤ ·) hs hs') :
    hs.foldl (fun acc h => max acc (h + 6)) a ≤
      hs'.foldl (fun acc h => max acc (h + 6)) a' := by
  induction h generalizing a a' with
  | nil => exact ha
  | cons hxy _ ih =>
    exact ih _ _ (max_le_max ha (add_le_add_right hxy 6))

/-- C7, counterexample: the claim fails on the code.  The ICICI template
declares no minimum row height in the 18-28 range: with all seven cells
measuring 9.2 units (a one-line cell at its font size) the emitted row
height is 15.2, below every minimum the claim allows. -/
theorem C7_counterexample :
    iciciRowHeight (List.replicate 7 (46 / 5)) = 76 / 5 ∧
    (76 / 5 : ℚ) < 18 := by
  refine ⟨by norm_num [iciciRowHeight, List.replicate], by norm_num⟩

/-- C7, amended: the PNB template clamps the padded measured text height
to the declared minimum 22 (which lies in the 18-28 range), so its row
height is `max (measured + 8) 22`; the ICICI template has no declared
minimum — its row height is the maximum over the cells of measured height
plus 6 and can fall below 18; in both templates row height is monotonic in
the measured text heights, so a two-line description never yields a
smaller row than a one-line one. -/
theorem C7_row_height :
    (∀ mh : ℚ, pnbRowHeight mh = max (mh + 8) 22) ∧
    (∀ mh : ℚ, 22 ≤ pnbRowHeight mh) ∧
    ((18 : ℚ) ≤ 22 ∧ (22 : ℚ) ≤ 28) ∧
    (∀ m m' : ℚ, m ≤ m' → pnbRowHeight m ≤ pnbRowHeight m') ∧
    (∀ hs hs' : List ℚ, List.Forall₂ (· ≤ ·) hs hs' →
      iciciRowHeight hs ≤ iciciRowHeight hs') := by
  refine ⟨fun mh => rfl, fun mh => le_max_right _ _, by norm_num,
    fun m m' hm => max_le_max (add_le_add_right hm 8) le_rfl,
    fun hs hs' h => iciciFold_mono 0 0 hs hs' le_rfl h⟩

/-- C7, witness: monotonicity instantiated at one-line versus two-line
measured heights. -/
theorem C7_row_height_witness :
    pnbRowHeight 10 ≤ pnbRowHeight 20 ∧
    iciciRowHeight [10, 5] ≤ iciciRowHeight [20, 5] :=
  ⟨C7_row_height.2.2.2.1 10 20 (by norm_num),
   C7_row_height.2.2.2.2 [10, 5] [20, 5]
     (by refine List.Forall₂.cons (by norm_num)
           (List.Forall₂.cons (by norm_num) List.Forall₂.nil))⟩

/-- Bound invariant of the PNB placement loop: when every row height fits
a fresh continuation page, every placed row ends at or above the bottom
margin. -/
theorem pnbLayoutGo_bound (pageH : ℚ) (p : ℕ) (y : ℚ) (hs : List ℚ)
    (hb : ∀ h ∈ hs, h ≤ pageH - 160) :
    ∀ r ∈ pnbLayoutGo pageH p y hs, r.2.1 + r.2.2 ≤ pageH - 80 := by
  induction hs generalizing p y with
  | nil => simp [pnbLayoutGo]
  | cons h t ih =>
    intro r hr
    have hh : h ≤ pageH - 160 := hb h (by simp)
    have hbt : ∀ x ∈ t, x ≤ pageH - 160 := fun x hx => hb x (by simp [hx])
    by_cases hcase : y + h > pageH - 80
    · simp only [pnbLayoutGo, if_pos hcase, List.mem_cons] at hr
      rcases hr with rfl | hr
      · dsimp only; linarith
      · exact ih _ _ hbt r hr
    · simp only [pnbLayoutGo, if_neg hcase, List.mem_cons] at hr
      rcases hr with rfl | hr
      · dsimp only; linarith [not_lt.mp hcase]
      · exact ih _ _ hbt r hr

/-- Bound invariant of the IDFC placement loop. -/
theorem idfcLayoutGo_bound (pageH : ℚ) (p : ℕ) (y : ℚ) (hs : List ℚ)
    (hb : ∀ h ∈ hs, h ≤ pageH - 120) :
    ∀ r ∈ idfcLayoutGo pageH p y hs, r.2.1 + r.2.2 ≤ pageH - 80 := by
  induction hs generalizing p y with
  | nil => simp [idfcLayoutGo]
  | cons h t ih =>
    intro r hr
    have hh : h ≤ pageH - 120 := hb h (by simp)
    have hbt : ∀ x ∈ t, x ≤ pageH - 120 := fun x hx => hb x (by simp [hx])
    by_cases hcase : y + h > pageH - 80
    · simp only [idfcLayoutGo, if_pos hcase, List.mem_cons] at hr
      rcases hr with rfl | hr
      · dsimp only; linarith
      · exact ih _ _ hbt r hr
    · simp only [idfcLayoutGo, if_neg hcase, List.mem_cons] at hr
      rcases hr with rfl | hr
      · dsimp only; linarith [not_lt.mp hcase]
      · exact ih _ _ hbt r hr

/-- Head shape of the PNB placement loop: the first placed row is either
on the current page at the current y, or on the next page at the
continuation offset 80. -/
theorem pnbLayoutGo_head (pageH : ℚ) (p : ℕ) (y : ℚ) (hs : List ℚ) :
    ∀ r, (pnbLayoutGo pageH p y hs).head? = some r →
      (r.1 = p ∧ r.2.1 = y) ∨ (r.1 = p + 1 ∧ r.2.1 = 80) := by
  cases hs with
  | nil => intro r hr; simp [pnbLayoutGo] at hr
  | cons h t =>
    intro r hr
    by_cases hcase : y + h > pageH - 80
    · simp only [pnbLayoutGo, if_pos hcase, List.head?_cons,
        Option.some.injEq] at hr
      right; rw [← hr]; exact ⟨rfl, rfl⟩
    · simp only [pnbLayoutGo, if_neg hcase, List.head?_cons,
        Option.some.injEq] at hr
      left; rw [← hr]; exact ⟨rfl, rfl⟩

/-- Page-transition invariant of the PNB placement loop: consecutive rows
are on the same page, or the later row opens the next page at y = 80. -/
theorem pnbLayoutGo_chain (pageH : ℚ) (p : ℕ) (y : ℚ) (hs : List ℚ) :
    List.Chain' (fun a b : PlacedRow =>
      b.1 = a.1 ∨ (b.1 = a.1 + 1 ∧ b.2.1 = 80)) (pnbLayoutGo pageH p y hs) := by
  induction hs generalizing p y with
  | nil => simp [pnbLayoutGo]
  | cons h t ih =>
    by_cases hcase : y + h > pageH - 80
    · rw [pnbLayoutGo, if_pos hcase]
      rw [List.chain'_cons']
      refine ⟨fun b hb => ?_, ih _ _⟩
      rcases pnbLayoutGo_head pageH (p + 1) (80 + h) t b hb with hsp | hnp
      · exact Or.inl hsp.1
      · exact Or.inr ⟨hnp.1, hnp.2⟩
    · rw [pnbLayoutGo, if_neg hcase]
      rw [List.chain'_cons']
      refine ⟨fun b hb => ?_, ih _ _⟩
      rcases pnbLayoutGo_head pageH p (y + h) t b hb with hsp | hnp
      · exact Or.inl hsp.1
      · exact Or.inr ⟨hnp.1, hnp.2⟩

/-- Head shape of the IDFC placement loop (continuation offset 40). -/
theorem idfcLayoutGo_head (pageH : ℚ) (p : ℕ) (y : ℚ) (hs : List ℚ) :
    ∀ r, (idfcLayoutGo pageH p y hs).head? = some r →
      (r.1 = p ∧ r.2.1 = y) ∨ (r.1 = p + 1 ∧ r.2.1 = 40) := by
  cases hs with
  | nil => intro r hr; simp [idfcLayoutGo] at hr
  | cons h t =>
    intro r hr
    by_cases hcase : y + h > pageH - 80
    · simp only [idfcLayoutGo, if_pos hcase, List.head?_cons,
        Option.some.injEq] at hr
      right; rw [← hr]; exact ⟨rfl, rfl⟩
    · simp only [idfcLayoutGo, if_neg hcase, List.head?_cons,
        Option.some.injEq] at hr
      left; rw [← hr]; exact ⟨rfl, rfl⟩

/-- Page-transition invariant of the IDFC placement loop. -/
theorem idfcLayoutGo_chain (pageH : ℚ) (p : ℕ) (y : ℚ) (hs : List ℚ) :
    List.Chain' (fun a b : PlacedRow =>
      b.1 = a.1 ∨ (b.1 = a.1 + 1 ∧ b.2.1 = 40)) (idfcLayoutGo pageH p y hs) := by
  induction hs generalizing p y with
  | nil => simp [idfcLayoutGo]
  | cons h t ih =>
    by_cases hcase : y + h > pageH - 80
    · rw [idfcLayoutGo, if_pos hcase]
      rw [List.chain'_cons']
      refine ⟨fun b hb => ?_, ih _ _⟩
      rcases idfcLayoutGo_head pageH (p + 1) (40 + h) t b hb with hsp | hnp
      · exact Or.inl hsp.1
      · exact Or.inr ⟨hnp.1, hnp.2⟩
    · rw [idfcLayoutGo, if_neg hcase]
      rw [List.chain'_cons']
      refine ⟨fun b hb => ?_, ih _ _⟩
      rcases idfcLayoutGo_head pageH p (y + h) t b hb with hsp | hnp
      · exact Or.inl hsp.1
      · exact Or.inr ⟨hnp.1, hnp.2⟩

/-- C8, counterexample: the claim fails on the code.  A PNB row of height
700 (a narration wrapping to many lines) does not fit even a fresh page:
the page advance is emitted, the row starts at the continuation offset 80,
and its extent 780 exceeds the bottom margin 761.89 of an A4 page. -/
theorem C8_counterexample :
    pnbLayout a4Height 106 [700] = [(2, 80, 700)] ∧
    (80 : ℚ) + 700 > a4Height - 80 := by
  refine ⟨by norm_num [pnbLayout, pnbLayoutGo, a4Height], by
    norm_num [a4Height]⟩

/-- C8, amended: provided every row height is at most the bottom margin
minus the continuation offset (pageH − 160 for PNB, pageH − 120 for
IDFC), no placed row's vertical extent exceeds the bottom margin
`pageH − 80`; and unconditionally, the first row of every continuation
page starts at exactly the template's continuation offset (80 for PNB,
40 for IDFC), including when the very first row is pushed to page 2. -/
theorem C8_page_break :
    (∀ pageH startY hs, (∀ h ∈ hs, h ≤ pageH - 160) →
      ∀ r ∈ pnbLayout pageH startY hs, r.2.1 + r.2.2 ≤ pageH - 80) ∧
    (∀ pageH startY hs, (∀ h ∈ hs, h ≤ pageH - 120) →
      ∀ r ∈ idfcLayout pageH startY hs, r.2.1 + r.2.2 ≤ pageH - 80) ∧
    (∀ pageH startY hs, List.Chain' (fun a b : PlacedRow =>
      b.1 = a.1 ∨ (b.1 = a.1 + 1 ∧ b.2.1 = 80)) (pnbLayout pageH startY hs)) ∧
    (∀ pageH startY hs r, (pnbLayout pageH startY hs).head? = some r →
      (r.1 = 1 ∧ r.2.1 = startY) ∨ (r.1 = 2 ∧ r.2.1 = 80)) ∧
    (∀ pageH startY hs, List.Chain' (fun a b : PlacedRow =>
      b.1 = a.1 ∨ (b.1 = a.1 + 1 ∧ b.2.1 = 40)) (idfcLayout pageH startY hs)) ∧
    (∀ pageH startY hs r, (idfcLayout pageH startY hs).head? = some r →
      (r.1 = 1 ∧ r.2.1 = startY) ∨ (r.1 = 2 ∧ r.2.1 = 40)) :=
  ⟨fun pageH startY hs hb => pnbLayoutGo_bound pageH 1 startY hs hb,
   fun pageH startY hs hb => idfcLayoutGo_bound pageH 1 startY hs hb,
   fun pageH startY hs => pnbLayoutGo_chain pageH 1 startY hs,
   fun pageH startY hs => pnbLayoutGo_head pageH 1 startY hs,
   fun pageH startY hs => idfcLayoutGo_chain pageH 1 startY hs,
   fun pageH startY hs => idfcLayoutGo_head pageH 1 startY hs⟩

/-- C8, witness: the bound applied on an A4 page to two rows of heights
10 and 600, the second of which is placed at (1, 116) and ends within the
bottom margin. -/
theorem C8_page_break_witness :
    (116 : ℚ) + 600 ≤ a4Height - 80 :=
  C8_page_break.1 a4Height 106 [10, 600]
    (by norm_num [List.forall_mem_cons, a4Height])
    (1, 116, 600)
    (by norm_num [pnbLayout, pnbLayoutGo, a4Height])

/-- C9, counterexample: the claim fails on the code.  The IDFC summary
cells are read from the account profile, not computed from the ledger: an
account carrying total debit `"999.00"` is rendered as-is even when the
entry sequence's debits sum to 100 (rendered `"100.00"`); the summary
function does not consume the entries at all. -/
theorem C9_counterexample :
    idfcSummaryValues none (some "999.00") none none =
      ["0.00", "999.00", "0.00", "0.00"] ∧
    sumDebits [⟨some 100, none, none⟩] = 100 ∧
    fixed2Str (sumDebits [⟨some 100, none, none⟩]) = "100.00" ∧
    ("999.00" : String) ≠ "100.00" := by
  have hs : sumDebits [⟨some 100, none, none⟩] = 100 := by
    norm_num [sumDebits]
  refine ⟨by decide, hs, ?_, by decide⟩
  rw [hs]
  norm_num +decide [fixed2Str, renderNat, renderNatAux, digitChar]

/-- C9, amended: only the BANDHAN template computes its summary from the
full entry sequence (summing the strictly positive debits and credits —
equal to the full sums when no amount is negative — and taking opening and
closing from the first and last balances, independent of pagination by
construction); the AXIS template prefers account-profile totals and
recomputes the entry sums only when one of them is missing; the IDFC
template reads all four summary values from the account profile. -/
theorem C9_totals :
    (∀ es, (∀ e ∈ es, (∀ d, e.debit = some d → 0 ≤ d) ∧
        (∀ c, e.credit = some c → 0 ≤ c)) →
      bandhanTotalDebits es = sumDebits es ∧
      bandhanTotalCredits es = sumCredits es) ∧
    (∀ es e, es.head? = some e → bandhanOpening es = e.balance.getD 0) ∧
    (∀ es e, es.getLast? = some e → bandhanClosing es = e.balance.getD 0) ∧
    (∀ es, axisTotals none none es =
      (fixed2Str (sumDebits es), fixed2Str (sumCredits es))) ∧
    (∀ es td tc, td ≠ "" → tc ≠ "" →
      axisTotals (some td) (some tc) es = (td, tc)) ∧
    (∀ ob td tc cb, idfcSummaryValues ob td tc cb =
      [jsOrD ob "0.00", jsOrD td "0.00", jsOrD tc "0.00",
        jsOrD cb "0.00"]) := by
  refine ⟨fun es h => ⟨?_, ?_⟩, fun es e he => ?_, fun es e he => ?_,
    fun es => rfl, fun es td tc htd htc => ?_, fun ob td tc cb => rfl⟩
  · induction es with
    | nil => rfl
    | cons e t ih =>
      have he := (h e (by simp)).1
      have ht := ih fun x hx => h x (by simp [hx])
      simp only [bandhanTotalDebits, sumDebits, List.map_cons,
        List.sum_cons] at ht ⊢
      rw [ht]
      congr 1
      cases hd : e.debit with
      | none => simp
      | some d =>
        have hdn : 0 ≤ d := he d hd
        rcases lt_or_eq_of_le hdn with hlt | heq
        · simp [hlt]
        · simp [← heq]
  · induction es with
    | nil => rfl
    | cons e t ih =>
      have he := (h e (by simp)).2
      have ht := ih fun x hx => h x (by simp [hx])
      simp only [bandhanTotalCredits, sumCredits, List.map_cons,
        List.sum_cons] at ht ⊢
      rw [ht]
      congr 1
      cases hc : e.credit with
      | none => simp
      | some c =>
        have hcn : 0 ≤ c := he c hc
        rcases lt_or_eq_of_le hcn with hlt | heq
        · simp [hlt]
        · simp [← heq]
  · simp [bandhanOpening, he]
  · simp [bandhanClosing, he]
  · simp [axisTotals, jsTruthyS, htd, htc]

/-- C9, witness: the AXIS account-priority case and the BANDHAN
nonnegative-sum case at concrete inputs. -/
theorem C9_totals_witness :
    axisTotals (some "7.00") (some "8.00") [⟨some 1, some 2, none⟩] =
      ("7.00", "8.00") ∧
    bandhanTotalDebits [⟨some 5, some 3, none⟩] =
      sumDebits [⟨some 5, some 3, none⟩] ∧
    bandhanOpening [⟨none, none, some 42⟩] =
      (some (42 : ℚ)).getD 0 :=
  ⟨C9_totals.2.2.2.2.1 [⟨some 1, some 2, none⟩] "7.00" "8.00"
     (by decide) (by decide),
   (C9_totals.1 [⟨some 5, some 3, none⟩]
     (by
        intro e he
        rcases List.mem_singleton.mp he with rfl
        refine ⟨fun d hd => ?_, fun c hc => ?_⟩
        · rw [show d = 5 by simpa using hd.symm]; norm_num
        · rw [show c = 3 by simpa using hc.symm]; norm_num)).1,
   C9_totals.2.1 [⟨none, none, some 42⟩] ⟨none, none, some 42⟩ rfl⟩

/-- Membership in a trimmed list implies membership in the original. -/
theorem mem_of_mem_trimL {c : Char} {l : List Char} (h : c ∈ trimL l) :
    c ∈ l := by
  unfold trimL at h
  rw [List.mem_reverse] at h
  have h2 : c ∈ (l.dropWhile isJSWhitespace).reverse :=
    (List.dropWhile_sublist _).subset h
  rw [List.mem_reverse] at h2
  exact (List.dropWhile_sublist _).subset h2

/-- A list that trims to nothing is all whitespace. -/
theorem all_ws_of_trimL_eq_nil {l : List Char} (h : trimL l = []) :
    ∀ c ∈ l, isJSWhitespace c = true := by
  unfold trimL at h
  rw [List.reverse_eq_nil_iff, List.dropWhile_eq_nil_iff] at h
  intro c hc
  have hsplit :
      l.takeWhile isJSWhitespace ++ l.dropWhile isJSWhitespace = l :=
    List.takeWhile_append_dropWhile isJSWhitespace l
  rw [← hsplit] at hc
  rcases List.mem_append.mp hc with h1 | h1
  · exact List.mem_takeWhile_imp h1
  · exact h c (List.mem_reverse.mpr h1)

/-- Removing commas from an all-whitespace list changes nothing. -/
theorem filter_ne_comma_of_all_ws {l : List Char}
    (h : ∀ c ∈ l, isJSWhitespace c = true) :
    (l.filter fun c => c ≠ ',') = l := by
  rw [List.filter_eq_self]
  intro c hc
  rw [decide_eq_true_eq]
  intro hcomma
  subst hcomma
  exact absurd (h ',' hc) (by decide)

/-- On inputs free of line terminators, `parseNumberSafe` agrees with the
spec-worded `parseAmount` rules everywhere. -/
theorem parseNumberSafeL_eq_spec {l : List Char}
    (h : ∀ c ∈ l, isLineTerm c = false) :
    parseNumberSafeL l = parseAmountSpecL l := by
  by_cases h0 : trimL l = []
  · have hws := all_ws_of_trimL_eq_nil h0
    have hf : (l.filter fun c => c ≠ ',') = l :=
      filter_ne_comma_of_all_ws hws
    simp only [parseNumberSafeL, parseAmountSpecL, hf, h0]
    simp
  · by_cases h1 : trimL (l.filter fun c => c ≠ ',') = []
    · simp only [parseNumberSafeL, parseAmountSpecL, h1]
      have h0e : (trimL l).isEmpty = false := by
        cases he : trimL l with
        | nil => exact absurd he h0
        | cons a t => rfl
      simp [h0e, parseFloatD, parseMantissa]
    · have hmem : ∀ c ∈ trimL (l.filter fun x => x ≠ ','), c ∈ l := by
        intro c hc
        exact (List.mem_filter.mp (mem_of_mem_trimL hc)).1
      have hmid : ∀ c ∈ ((trimL (l.filter fun x => x ≠ ',')).drop 1).dropLast,
          isLineTerm c = false := by
        intro c hc
        refine h c (hmem c ?_)
        exact (List.drop_sublist _ _).subset ((List.dropLast_sublist _).subset hc)
      have hall : (((trimL (l.filter fun x => x ≠ ',')).drop 1).dropLast.all
          fun c => !(isLineTerm c)) = true := by
        rw [List.all_eq_true]
        intro c hc
        rw [hmid c hc]
        rfl
      have hwrap : parenWrapped (trimL (l.filter fun x => x ≠ ',')) =
          (decide ((trimL (l.filter fun x => x ≠ ',')).head? = some '(') &&
            decide ((trimL (l.filter fun x => x ≠ ',')).getLast? = some ')') &&
            decide (2 ≤ (trimL (l.filter fun x => x ≠ ',')).length)) := by
        unfold parenWrapped
        rw [hall, Bool.and_true]
      have hne : (trimL (l.filter fun x => x ≠ ',')).isEmpty = false := by
        cases he : trimL (l.filter fun x => x ≠ ',') with
        | nil => exact absurd he h1
        | cons a t => rfl
      have hne0 : (trimL l).isEmpty = false := by
        cases he : trimL l with
        | nil => exact absurd he h0
        | cons a t => rfl
      simp only [parseNumberSafeL, parseAmountSpecL, hne, hne0, hwrap,
        Bool.false_eq_true, if_false]
      by_cases hw : (decide ((trimL (l.filter fun x => x ≠ ',')).head? = some '(') &&
          decide ((trimL (l.filter fun x => x ≠ ',')).getLast? = some ')') &&
          decide (2 ≤ (trimL (l.filter fun x => x ≠ ',')).length)) = true
      · rw [if_pos hw, if_pos hw]
        cases hp : parseFloatD (innerParen (trimL (l.filter fun x => x ≠ ','))) with
        | none => simp
        | some q => simp
      · rw [if_neg hw, if_neg hw]
        cases hp : parseFloatD (trimL (l.filter fun x => x ≠ ',')) with
        | none => simp
        | some q => simp

/-- C2, counterexample: the claim fails on the code.  The string
`"(5\n)"` is fully wrapped in parentheses, so the stated rules negate its
parsed interior, giving −5; but the source's wrap test is the regex
`/^\(.*\)$/`, whose `.` does not match the interior newline, so the code
falls through to `parseFloat("(5\n)")`, which is NaN, and returns 0. -/
theorem C2_counterexample :
    parseNumberSafe (some "(5\n)") = 0 ∧
    parseAmountSpec (some "(5\n)") = -5 ∧
    ((0 : ℚ) ≠ -5) := by
  refine ⟨?_, ?_, by norm_num⟩
  · norm_num +decide [parseNumberSafe, parseNumberSafeL, parseFloatD,
      parseMantissa, digitsVal, digitVal, expFactor, trimL, parenWrapped,
      innerParen, isJSWhitespace, isLineTerm, List.takeWhile, List.dropWhile,
      List.filter, Char.isDigit]
  · norm_num +decide [parseAmountSpec, parseAmountSpecL, parseFloatD,
      parseMantissa, digitsVal, digitVal, expFactor, trimL, parenWrapped,
      innerParen, isJSWhitespace, isLineTerm, List.takeWhile, List.dropWhile,
      List.filter, Char.isDigit]

/-- C2, amended: on every input containing no line terminator (and on
null/undefined), `parseNumberSafe` computes exactly the spec's ordered
rules — null/undefined/empty to zero, comma and whitespace stripping,
parenthesised negation, decimal parse, failure to zero, never raising —
and in particular `"1,234.50"` parses to 1234.50, `"(500)"` to −500,
`""` to 0 and `"abc"` to 0.  (For strings with a line terminator inside a
parenthesised value, the code's regex wrap test fails and the value
parses as 0 instead of a negated interior.) -/
theorem C2_parse_contract :
    (∀ v : Option String, (∀ c ∈ (v.getD "").data, isLineTerm c = false) →
      parseNumberSafe v = parseAmountSpec v) ∧
    parseNumberSafe (some "1,234.50") = 2469 / 2 ∧
    parseNumberSafe (some "(500)") = -500 ∧
    parseNumberSafe (some "") = 0 ∧
    parseNumberSafe (some "abc") = 0 ∧
    parseNumberSafe none = 0 := by
  refine ⟨fun v hv => ?_, ?_, ?_, ?_, ?_, rfl⟩
  · cases v with
    | none => rfl
    | some s => exact parseNumberSafeL_eq_spec hv
  · norm_num +decide [parseNumberSafe, parseNumberSafeL, parseFloatD,
      parseMantissa, digitsVal, digitVal, expFactor, trimL, parenWrapped,
      innerParen, isJSWhitespace, isLineTerm, List.takeWhile, List.dropWhile,
      List.filter, Char.isDigit]
  · norm_num +decide [parseNumberSafe, parseNumberSafeL, parseFloatD,
      parseMantissa, digitsVal, digitVal, expFactor, trimL, parenWrapped,
      innerParen, isJSWhitespace, isLineTerm, List.takeWhile, List.dropWhile,
      List.filter, Char.isDigit]
  · norm_num +decide [parseNumberSafe, parseNumberSafeL, trimL, List.filter,
      List.dropWhile, isJSWhitespace]
  · norm_num +decide [parseNumberSafe, parseNumberSafeL, parseFloatD,
      parseMantissa, digitsVal, digitVal, expFactor, trimL, parenWrapped,
      innerParen, isJSWhitespace, isLineTerm, List.takeWhile, List.dropWhile,
      List.filter, Char.isDigit]

/-- C2, witness: the rule agreement applied at `"1,234.50"`. -/
theorem C2_parse_contract_witness :
    parseNumberSafe (some "1,234.50") = parseAmountSpec (some "1,234.50") :=
  C2_parse_contract.1 (some "1,234.50") (by decide)

end BankStmt
